import Mathlib

/-!
Verification development for the polymarket-copytrader repository.

The embedding below translates the core pipeline of the repository into
Lean definitions:

* `src/electron/main/copyTrader.ts` — `CopyTraderService` (scheduler):
  the per-tick loop over watched addresses, per-address dedup/cursor
  state, sizing, and the submission loop.
* `src/electron/preload/index.ts` (second document) — `GammaClient`:
  `fetchFillsByAddress` with its ordered candidate endpoint list and
  normalization.
* `src/electron/main/secureStore.ts` (second document) —
  `PolymarketClient`: `mirrorOrder` with dry-run, CLOB and raw-transport
  fallback paths.
* `src/unnamed/part_002` — `HighPerformanceCopyTrader`: configuration
  clamps and trade sizing.
* `src/unnamed/part_005` — the `copytrader:start` IPC handler.

JavaScript numbers are modelled as `Rat` (exact rationals); timestamps
(milliseconds) as `Nat`.  Network and SDK interactions are modelled as
explicit environment functions returning `Except`; a rejected promise is
an `Except.error`.  JavaScript `Set` / `Record` / `Map` state is modelled
with lists and association lists.
-/

namespace Copytrader

/-- Trade side, from the `'buy' | 'sell'` union in the source. -/
inductive Side where
  | buy
  | sell
deriving DecidableEq, Repr

/-- `executionMode: 'percent' | 'fixed'` from `CopySettings` in
`copyTrader.ts`. -/
inductive ExecMode where
  | percent
  | fixed
deriving DecidableEq, Repr

/-- `GammaFill` from the `GammaClient` module: one normalized fill. -/
structure GammaFill where
  id : String
  marketId : String
  outcomeId : String
  side : Side
  price : Rat
  size : Rat
  timestamp : Nat
deriving DecidableEq, Repr

/-- `CopySettings` from `copyTrader.ts` (the fields the pipeline reads;
`gammaBaseUrl` and `rpcUrl` are connection strings consumed elsewhere). -/
structure CopySettings where
  targetAddresses : List String
  copyFactor : Rat
  maxSlippageBps : Rat
  dryRun : Bool
  pollIntervalMs : Nat
  executionMode : ExecMode
  fixedSize : Rat
  sellAllOnSell : Bool
deriving DecidableEq, Repr

/-- `MirrorOrderRequest` from the `PolymarketClient` module (the fields
`tick` passes to `mirrorOrder`). -/
structure MirrorOrderRequest where
  marketId : String
  outcomeId : String
  side : Side
  price : Rat
  size : Rat
deriving DecidableEq, Repr

/-- The sizing computation from `CopyTraderService.tick`
(`copyTrader.ts` lines 79–80):

    const baseSize = this.settings.executionMode === 'fixed'
      ? this.settings.fixedSize : (f.size * this.settings.copyFactor)
    const size = f.side === 'sell' && this.settings.sellAllOnSell ? 1 : baseSize
-/
def computeMirrorSize (settings : CopySettings) (f : GammaFill) : Rat :=
  let baseSize :=
    if settings.executionMode = ExecMode.fixed then settings.fixedSize
    else f.size * settings.copyFactor
  if f.side = Side.sell ∧ settings.sellAllOnSell then 1 else baseSize

/-- The request `tick` builds for a fill at the computed size
(`copyTrader.ts` lines 81–87). -/
def toRequest (f : GammaFill) (size : Rat) : MirrorOrderRequest :=
  { marketId := f.marketId
    outcomeId := f.outcomeId
    side := f.side
    price := f.price
    size := size }

/-! ## Scheduler state (`CopyTraderService`) -/

/-- One event on the `copytrader:log` / `copytrader:error` channels.
Each constructor is a structured rendering of one `this.log` /
`this.reportError` call site in `copyTrader.ts`:
`checking` (line 56), `found` (line 64), `noNewTrades` (line 74),
`simulated` (line 89), `mirrored` (line 91), `errorEvent`
(`reportError`, reached from lines 61, and from the `.catch` wrappers in
`start`, lines 34 and 37, when the tick promise rejects). -/
inductive Event where
  | checking (address : String) (since : Nat)
  | found (address : String) (count : Nat)
  | noNewTrades
  | simulated (address : String) (side : Side) (size : Rat) (price : Rat)
  | mirrored (address : String) (side : Side) (size : Rat) (price : Rat)
      (marketId : String) (outcomeId : String) (tx : String)
  | errorEvent (msg : String)
deriving DecidableEq, Repr

/-- Association-list read, modelling `record[key]` / `map.get(key)`. -/
def assocGet {α : Type} : List (String × α) → String → Option α
  | [], _ => none
  | (k, v) :: rest, a => if k = a then some v else assocGet rest a

/-- Association-list write, modelling `record[key] = v` / `map.set(key, v)`. -/
def assocSet {α : Type} : List (String × α) → String → α → List (String × α)
  | [], a, v => [(a, v)]
  | (k, w) :: rest, a, v =>
    if k = a then (a, v) :: rest else (k, w) :: assocSet rest a v

/-- The per-address sync state owned by `CopyTraderService`:
`lastTimestampMsByAddress` and `seenFillIdsByAddress`
(`copyTrader.ts` lines 21–22).  Sets of fill ids are lists (membership
is what the code tests). -/
structure SyncState where
  lastTs : List (String × Nat)
  seen : List (String × List String)
deriving DecidableEq, Repr

/-- The fresh state built by the `CopyTraderService` constructor. -/
def SyncState.init : SyncState := { lastTs := [], seen := [] }

/-- `this.lastTimestampMsByAddress[address] ?? 0`. -/
def lookupTs (st : SyncState) (a : String) : Nat :=
  (assocGet st.lastTs a).getD 0

/-- `this.seenFillIdsByAddress.get(address) ?? new Set<string>()`. -/
def lookupSeen (st : SyncState) (a : String) : List String :=
  (assocGet st.seen a).getD []

/-- `this.lastTimestampMsByAddress[address] = t`. -/
def setTs (st : SyncState) (a : String) (t : Nat) : SyncState :=
  { st with lastTs := assocSet st.lastTs a t }

/-- `this.seenFillIdsByAddress.set(address, seen)`. -/
def setSeen (st : SyncState) (a : String) (s : List String) : SyncState :=
  { st with seen := assocSet st.seen a s }

/-- The inner loop of `tick` over one address's fetched fills
(`copyTrader.ts` lines 65–71): each fill is added to the aggregated
batch iff its id is not yet in `seen` (and its id is then added to
`seen`); the cursor is updated to
`max(lastTimestampMsByAddress[address] ?? 0, f.timestamp)` for every
fill, seen or not.  Returns the updated seen set, updated cursor, and
the newly-seen fills in delivery order. -/
def scanFills : List String → Nat → List GammaFill →
    List String × Nat × List GammaFill
  | seen, last, [] => (seen, last, [])
  | seen, last, f :: rest =>
    if f.id ∈ seen then
      scanFills seen (max last f.timestamp) rest
    else
      let r := scanFills (f.id :: seen) (max last f.timestamp) rest
      (r.1, r.2.1, f :: r.2.2)

/-- A fill tagged with the watched address it came from — one entry of
the `aggregated` array in `tick` (`copyTrader.ts` line 51). -/
structure TaggedFill where
  address : String
  fill : GammaFill
deriving DecidableEq, Repr

/-- The per-address half of `tick` (`copyTrader.ts` lines 52–72): for
each watched address, read the cursor and seen set, materialize the
seen-set entry, fetch (a fetch error is reported and the loop
continues with the next address), then scan the fills.  `fetch` is the
environment: the outcome of `gamma.fetchFillsByAddress(address, since)`.
Returns the updated state, emitted events, and the aggregated
newly-seen fills. -/
def fetchPhase (fetch : String → Nat → Except String (List GammaFill)) :
    SyncState → List String → SyncState × List Event × List TaggedFill
  | st, [] => (st, [], [])
  | st, address :: rest =>
    let since := lookupTs st address
    let seen := lookupSeen st address
    let st0 := setSeen st address seen
    match fetch address since with
    | Except.error e =>
      let r := fetchPhase fetch st0 rest
      (r.1, Event.checking address since :: Event.errorEvent e :: r.2.1, r.2.2)
    | Except.ok fills =>
      let s := scanFills seen since fills
      let st1 := setSeen (setTs st0 address s.2.1) address s.1
      let r := fetchPhase fetch st1 rest
      (r.1,
       Event.checking address since :: Event.found address fills.length :: r.2.1,
       s.2.2.map (fun f => TaggedFill.mk address f) ++ r.2.2)

/-- One attempted submission: the fill, its address tag, and the size
passed to `mirrorOrder`. -/
structure Submission where
  address : String
  fill : GammaFill
  size : Rat
deriving DecidableEq, Repr

/-- The submission loop of `tick` (`copyTrader.ts` lines 78–93).
`mirror` is the environment: the outcome of `mk.mirrorOrder(request)`.
There is no try/catch in this loop: the first rejected `mirrorOrder`
rejects the whole tick promise; the rejection is reported once by the
`.catch(err => this.reportError(err))` wrappers in `start`
(lines 34 and 37), which the returned `errorEvent` models.  The `Bool`
result records whether the tick aborted this way. -/
def submitPhase (mirror : MirrorOrderRequest → Except String String)
    (settings : CopySettings) :
    List TaggedFill → List Event × List Submission × Bool
  | [] => ([], [], false)
  | tf :: rest =>
    let size := computeMirrorSize settings tf.fill
    match mirror (toRequest tf.fill size) with
    | Except.error e =>
      ([Event.errorEvent e], [Submission.mk tf.address tf.fill size], true)
    | Except.ok tx =>
      let ev :=
        if tx = "skipped:client-unavailable" then
          Event.simulated tf.address tf.fill.side size tf.fill.price
        else
          Event.mirrored tf.address tf.fill.side size tf.fill.price
            tf.fill.marketId tf.fill.outcomeId tx
      let r := submitPhase mirror settings rest
      (ev :: r.1, Submission.mk tf.address tf.fill size :: r.2.1, r.2.2)

/-- The environment one tick runs against: outcomes of the awaited
calls `gamma.fetchFillsByAddress`, `mk.ensureApprovals`, and
`mk.mirrorOrder`. -/
structure TickEnv where
  fetch : String → Nat → Except String (List GammaFill)
  approvals : Except String Unit
  mirror : MirrorOrderRequest → Except String String

/-- The result of one `tick`: the new sync state, the events emitted
(scheduler-level error reporting of a rejected tick included), the
submissions attempted, and whether the tick promise rejected. -/
structure TickResult where
  state : SyncState
  events : List Event
  subs : List Submission
  aborted : Bool
deriving Repr

/-- `CopyTraderService.tick` (`copyTrader.ts` lines 49–94), as a
function of the running flag, sync state and environment.  When
`running` is false the tick returns at once (line 50).  After the
per-address phase, an empty aggregated batch just logs (lines 73–76);
otherwise `ensureApprovals` runs once (line 77; its rejection rejects
the tick before any submission), then the submission loop. -/
def tick (env : TickEnv) (settings : CopySettings) (running : Bool)
    (st : SyncState) : TickResult :=
  if running then
    let fp := fetchPhase env.fetch st settings.targetAddresses
    if fp.2.2.isEmpty then
      { state := fp.1, events := fp.2.1 ++ [Event.noNewTrades],
        subs := [], aborted := false }
    else
      match env.approvals with
      | Except.error e =>
        { state := fp.1, events := fp.2.1 ++ [Event.errorEvent e],
          subs := [], aborted := true }
      | Except.ok _ =>
        let sp := submitPhase env.mirror settings fp.2.2
        { state := fp.1, events := fp.2.1 ++ sp.1,
          subs := sp.2.1, aborted := sp.2.2 }
  else
    { state := st, events := [], subs := [], aborted := false }

/-- A whole session: the ticks fired while the service is running, each
against its own environment (the interval keeps firing even after a
tick promise rejected).  Accumulates all events and submissions. -/
def runTicks (settings : CopySettings) :
    SyncState → List TickEnv → SyncState × List Event × List Submission
  | st, [] => (st, [], [])
  | st, env :: rest =>
    let t := tick env settings true st
    let r := runTicks settings t.state rest
    (r.1, t.events ++ r.2.1, t.subs ++ r.2.2)

/-- Number of submissions a log records for a given address and fill
id. -/
def subCount (subs : List Submission) (a : String) (fid : String) : Nat :=
  subs.countP (fun s => decide (s.address = a ∧ s.fill.id = fid))

/-! ## Scheduler lifecycle (`CopyTraderService.start` / `stop`) -/

/-- The lifecycle fields of `CopyTraderService`: `running` and
`intervalId` (`copyTrader.ts` lines 19–20).  An armed interval timer is
`some period`. -/
structure SchedulerCtl where
  running : Bool
  intervalId : Option Nat
deriving DecidableEq, Repr

/-- Result of a `start()` call: the new lifecycle state, how many
interval timers the call armed, and how many immediate ticks it
triggered. -/
structure StartResult where
  ctl : SchedulerCtl
  timersArmed : Nat
  immediateTicks : Nat
deriving DecidableEq, Repr

/-- `CopyTraderService.start` (`copyTrader.ts` lines 31–38): returns at
once if already running; otherwise sets `running`, arms one
`setInterval` timer at `pollIntervalMs`, logs, and triggers one
immediate tick. -/
def serviceStart (settings : CopySettings) (ctl : SchedulerCtl) : StartResult :=
  if ctl.running then
    { ctl := ctl, timersArmed := 0, immediateTicks := 0 }
  else
    { ctl := { running := true, intervalId := some settings.pollIntervalMs }
      timersArmed := 1
      immediateTicks := 1 }

/-- `CopyTraderService.stop` (`copyTrader.ts` lines 40–47): clears the
running flag and cancels the timer if armed. -/
def serviceStop (_ctl : SchedulerCtl) : SchedulerCtl :=
  { running := false, intervalId := none }

/-! ## `PolymarketClient.mirrorOrder` -/

/-- The execution-relevant fields of `ExecutionSettings`
(second document of `secureStore.ts`). -/
structure ExecutionSettings where
  maxSlippageBps : Rat
  dryRun : Bool
deriving DecidableEq, Repr

/-- Decimal-free deterministic rendering of a rational, standing in for
JavaScript number-to-string conversion inside a template literal. -/
def ratStr (q : Rat) : String :=
  toString q.num ++ "/" ++ toString q.den

/-- Rendering of a side as in the source strings. -/
def sideStr : Side → String
  | Side.buy => "buy"
  | Side.sell => "sell"

/-- The dry-run token template from `mirrorOrder`
(`secureStore.ts` second document, line 153):
`dry-run:MARKET:OUTCOME:SIDE:SIZE@PRICE~slip:SLIPPAGE` where
`SLIPPAGE = maxSlippageBps / 10000`. -/
def dryRunToken (maxSlippageBps : Rat) (o : MirrorOrderRequest) : String :=
  "dry-run:" ++ o.marketId ++ ":" ++ o.outcomeId ++ ":" ++ sideStr o.side ++
    ":" ++ ratStr o.size ++ "@" ++ ratStr o.price ++ "~slip:" ++
    ratStr (maxSlippageBps / 10000)

/-- The trading-venue environment `mirrorOrder` runs against.
`clobAvailable` is whether the `ClobClient` constructor succeeded
(`this.clob` non-undefined).  `fallbackPost` is the outcome of the
raw `axios.post` to `/orders` (its body includes the slippage); the
pair holds the response's `hash` and `transactionHash` fields.
`clobPost` is the outcome of `createOrder` + `postOrder`; the pair
holds the response's `orderId` and `hash` fields.  The
credential-derivation attempt before posting (`createOrDeriveApiCreds`)
is wrapped in an empty catch in the source and has no effect on the
returned value, so it is not modelled. -/
structure PMEnv where
  clobAvailable : Bool
  fallbackPost : MirrorOrderRequest → Rat → Except String (Option String × Option String)
  clobPost : MirrorOrderRequest → Except String (Option String × Option String)

/-- `PolymarketClient.mirrorOrder` (`secureStore.ts` second document,
lines 149–206).  Dry-run returns the descriptive token without touching
the environment.  Live: if the CLOB client is unavailable, the raw
`/orders` post is used and the result is
`tx?.hash ?? tx?.transactionHash ?? 'submitted'`; otherwise the CLOB
path returns `resp?.orderId ?? resp?.hash ?? 'submitted'`.  Any error
in the live try-block is rethrown as `Order failed: <original text>`. -/
def mirrorOrder (env : PMEnv) (s : ExecutionSettings) (o : MirrorOrderRequest) :
    Except String String :=
  let slippage := s.maxSlippageBps / 10000
  if s.dryRun then
    Except.ok (dryRunToken s.maxSlippageBps o)
  else if env.clobAvailable = false then
    match env.fallbackPost o slippage with
    | Except.error e => Except.error ("Order failed: " ++ e)
    | Except.ok (h, th) => Except.ok ((h.orElse (fun _ => th)).getD "submitted")
  else
    match env.clobPost o with
    | Except.error e => Except.error ("Order failed: " ++ e)
    | Except.ok (oid, h) => Except.ok ((oid.orElse (fun _ => h)).getD "submitted")

/-! ## `GammaClient.fetchFillsByAddress` -/

/-- The raw wire-shape fill: every field the normalizer in
`fetchFillsByAddress` reads, each optional.  Numeric wire fields are
rationals; wire timestamps are in seconds. -/
structure RawFill where
  id : Option String
  fillId : Option String
  tradeId : Option String
  transactionHash : Option String
  txHash : Option String
  transaction_hash : Option String
  asset : Option String
  marketId : Option String
  outcomeId : Option String
  outcome_id : Option String
  outcomeIndex : Option Rat
  outcome_index : Option Rat
  side : Option String
  action : Option String
  timestamp : Option Nat
  time : Option Nat
  block_time : Option Nat
  price : Option Rat
  fill_price : Option Rat
  execution_price : Option Rat
  size : Option Rat
  fill_amount : Option Rat
  amount : Option Rat
  execution_size : Option Rat
deriving DecidableEq, Repr

/-- A blank raw fill (every field absent), for building test payloads. -/
def RawFill.empty : RawFill :=
  { id := none, fillId := none, tradeId := none, transactionHash := none,
    txHash := none, transaction_hash := none, asset := none, marketId := none,
    outcomeId := none, outcome_id := none, outcomeIndex := none,
    outcome_index := none, side := none, action := none, timestamp := none,
    time := none, block_time := none, price := none, fill_price := none,
    execution_price := none, size := none, fill_amount := none, amount := none,
    execution_size := none }

/-- The body of the `.map` in `fetchFillsByAddress` (preload second
document, lines 238–257), normalizing one raw fill.  `now` is
`Date.now()`: the wire timestamp (seconds) is scaled to milliseconds,
defaulting to `now` when absent or zero (JavaScript falsiness of
`tsSec`). -/
def normalizeRawFill (now : Nat) (f : RawFill) : GammaFill :=
  let sideRaw :=
    String.mk (((f.side.orElse (fun _ => f.action)).getD "").data.map Char.toUpper)
  let side := if sideRaw = "SELL" ∨ sideRaw = "sell" then Side.sell else Side.buy
  let tsSec := ((f.timestamp.orElse (fun _ => f.time)).orElse
    (fun _ => f.block_time)).getD 0
  { id := ((f.id.orElse (fun _ => f.fillId)).orElse (fun _ => f.tradeId)).getD
      (((f.transactionHash.orElse (fun _ => f.txHash)).getD "") ++ "-" ++
        ((f.asset.orElse (fun _ => f.marketId)).getD ""))
    marketId := f.marketId.getD ""
    outcomeId :=
      match f.asset with
      | some a => a
      | none =>
        match f.outcomeId with
        | some o => o
        | none =>
          match f.outcome_id with
          | some o => o
          | none =>
            match f.outcomeIndex with
            | some i => ratStr i
            | none => ""
    side := side
    price := ((f.price.orElse (fun _ => f.fill_price)).orElse
      (fun _ => f.execution_price)).getD 0
    size := (((f.size.orElse (fun _ => f.fill_amount)).orElse
      (fun _ => f.amount)).orElse (fun _ => f.execution_size)).getD 0
    timestamp := if tsSec = 0 then now else tsSec * 1000 }

/-- The response payload shapes the candidate extractors distinguish:
an object (with optional `fills` / `trades` array fields), a bare
array, or `null`. -/
inductive RawData where
  | obj (fills : Option (List RawFill)) (trades : Option (List RawFill))
  | arr (items : List RawFill)
  | null

/-- The two declared response-shape extractors:
`data?.fills ?? data ?? []` and `data?.trades ?? data ?? []`. -/
inductive Extractor where
  | fills
  | trades
deriving DecidableEq, Repr

/-- Evaluates an extractor.  `none` models the `TypeError` thrown when
the `?? data` fallback yields a non-array object and `.map` is called
on it; `null` data falls through both `??` steps to `[]`. -/
def runExtractor : Extractor → RawData → Option (List RawFill)
  | Extractor.fills, RawData.obj (some l) _ => some l
  | Extractor.fills, RawData.obj none _ => none
  | Extractor.trades, RawData.obj _ (some l) => some l
  | Extractor.trades, RawData.obj _ none => none
  | _, RawData.arr items => some items
  | _, RawData.null => some []

/-- One candidate request shape: URL, query parameters (as rendered
key/value strings), and the declared extractor. -/
structure Attempt where
  url : String
  params : List (String × String)
  extract : Extractor
deriving DecidableEq, Repr

/-- `const sinceSec = sinceMs ? Math.floor(sinceMs / 1000) : undefined`
followed by the truthiness test `sinceSec ? { since: sinceSec } : {}`:
the `since` query parameter is present iff both values are nonzero. -/
def sinceParam (sinceMs : Option Nat) : Option Nat :=
  match sinceMs with
  | none => none
  | some ms =>
    if ms = 0 then none
    else if ms / 1000 = 0 then none else some (ms / 1000)

/-- The query parameters `{ addrKey: address, limit, ...since }`. -/
def mkParams (addrKey : Option String) (address : String) (limit : Nat)
    (since : Option Nat) : List (String × String) :=
  (match addrKey with
   | some k => [(k, address)]
   | none => []) ++
  [("limit", toString limit)] ++
  (match since with
   | some s => [("since", toString s)]
   | none => [])

/-- The fixed ordered candidate list of `fetchFillsByAddress` (preload
second document, lines 167–222), in source order: `/fills` (address),
`/trades` (address), `/v1/trades` (address), `/v1/fills` (address),
`/fills` (walletAddress), `/v1/trades` (address), `/v1/trades`
(walletAddress), `/trades` (address), `/fills/address/:address`,
`/trades/wallet/:address`. -/
def attemptsFor (baseUrl address : String) (since : Option Nat)
    (limit : Nat) : List Attempt :=
  [ { url := baseUrl ++ "/fills",
      params := mkParams (some "address") address limit since,
      extract := Extractor.fills },
    { url := baseUrl ++ "/trades",
      params := mkParams (some "address") address limit since,
      extract := Extractor.trades },
    { url := baseUrl ++ "/v1/trades",
      params := mkParams (some "address") address limit since,
      extract := Extractor.trades },
    { url := baseUrl ++ "/v1/fills",
      params := mkParams (some "address") address limit since,
      extract := Extractor.fills },
    { url := baseUrl ++ "/fills",
      params := mkParams (some "walletAddress") address limit since,
      extract := Extractor.fills },
    { url := baseUrl ++ "/v1/trades",
      params := mkParams (some "address") address limit since,
      extract := Extractor.trades },
    { url := baseUrl ++ "/v1/trades",
      params := mkParams (some "walletAddress") address limit since,
      extract := Extractor.trades },
    { url := baseUrl ++ "/trades",
      params := mkParams (some "address") address limit since,
      extract := Extractor.trades },
    { url := baseUrl ++ "/fills/address/" ++ address,
      params := mkParams none address limit since,
      extract := Extractor.fills },
    { url := baseUrl ++ "/trades/wallet/" ++ address,
      params := mkParams none address limit since,
      extract := Extractor.trades } ]

/-- Outcome of one `axios.get` under `validateStatus: () => true`: a
transport error (timeout, DNS, …) or a response with its status and
payload. -/
inductive HttpOutcome where
  | netError (msg : String)
  | resp (status : Nat) (data : RawData)

/-- The HTTP environment: outcome per URL and parameter list. -/
def HttpEnv : Type := String → List (String × String) → HttpOutcome

/-- The body of one loop iteration of `fetchFillsByAddress`
(lines 225–260): request; a 401 response throws
`Unauthorized (401) from data source`; a 404 throws `Not found (404)`;
any other response is normalized with the candidate's extractor (a
non-array payload makes the `.map` throw, modelled as the fixed
message below). -/
def attemptOutcome (env : HttpEnv) (now : Nat) (a : Attempt) :
    Except String (List GammaFill) :=
  match env a.url a.params with
  | HttpOutcome.netError m => Except.error m
  | HttpOutcome.resp status data =>
    if status = 401 then Except.error "Unauthorized (401) from data source"
    else if status = 404 then Except.error "Not found (404)"
    else
      match runExtractor a.extract data with
      | none => Except.error "normalization failed: response data is not an array"
      | some raws => Except.ok (raws.map (normalizeRawFill now))

/-- The candidate loop (lines 223–262): candidates are tried in order,
each failure is remembered in `lastError`, the first success returns
immediately, and exhaustion throws
`lastError ?? new Error('Unable to fetch fills')`.  The second
component instruments the loop with the list of candidates actually
attempted. -/
def tryAttempts (env : HttpEnv) (now : Nat) :
    List Attempt → Option String → Except String (List GammaFill) × List Attempt
  | [], lastErr => (Except.error (lastErr.getD "Unable to fetch fills"), [])
  | a :: rest, _lastErr =>
    match attemptOutcome env now a with
    | Except.error m =>
      let r := tryAttempts env now rest (some m)
      (r.1, a :: r.2)
    | Except.ok v => (Except.ok v, [a])

/-- `baseUrl.replace(/\/$/, '')` from the `GammaClient` constructor:
drops one trailing `'/'` if present. -/
def stripTrailingSlash (s : String) : String :=
  if s.data.getLast? = some '/' then String.mk s.data.dropLast else s

/-- `GammaClient.fetchFillsByAddress(address, sinceMs, limit)` (preload
second document, lines 165–263), with attempted-candidate
instrumentation. -/
def fetchFillsByAddress (env : HttpEnv) (now : Nat) (baseUrl address : String)
    (sinceMs : Option Nat) (limit : Nat := 50) :
    Except String (List GammaFill) × List Attempt :=
  tryAttempts env now
    (attemptsFor (stripTrailingSlash baseUrl) address (sinceParam sinceMs) limit)
    none

/-! ## `HighPerformanceCopyTrader` configuration clamps and the IPC
start handler -/

/-- `HighPerformanceCopyTrader.setCopyFactor` (`src/unnamed/part_002`
lines 193–195): `Math.max(0, Math.min(5, factor))`. -/
def setCopyFactor (factor : Rat) : Rat :=
  max 0 (min 5 factor)

/-- `HighPerformanceCopyTrader.setMaxSlippage` (`src/unnamed/part_002`
lines 197–199): `Math.max(10, Math.min(1000, slippageBps))`. -/
def setMaxSlippage (slippageBps : Rat) : Rat :=
  max 10 (min 1000 slippageBps)

/-- The sizing-relevant fields of a `HighPerformanceCopyTrader`
instance. -/
structure HPState where
  copyFactor : Rat
  maxSlippageBps : Rat
  dryRun : Bool
deriving DecidableEq, Repr

/-- The configuration application inside
`HighPerformanceCopyTrader.start` (`src/unnamed/part_002`
lines 235–240): the setters clamp `copyFactor` and `maxSlippageBps`
before any trade is processed. -/
def hpStart (copyFactor maxSlippageBps : Rat) (dryRun : Bool) : HPState :=
  { copyFactor := setCopyFactor copyFactor
    maxSlippageBps := setMaxSlippage maxSlippageBps
    dryRun := dryRun }

/-- The copy-size computation inside
`HighPerformanceCopyTrader.processTrade` (`src/unnamed/part_002`
line 329): `copySize: trade.size * this.copyFactor`, with no clamping
at sizing time. -/
def hpCopySize (st : HPState) (tradeSize : Rat) : Rat :=
  tradeSize * st.copyFactor

/-- What the Electron `copytrader:start` IPC handler
(`src/unnamed/part_005` lines 358–390) builds from its payload: the
`CopyTraderService` receives the payload unchanged, and the
`PolymarketClient` receives `payload.maxSlippageBps` and
`payload.dryRun` as-is.  No clamping is applied anywhere on this path.
(Keychain retrieval and wallet parsing are boundary concerns and are
not modelled.) -/
def ipcStart (payload : CopySettings) : CopySettings × ExecutionSettings :=
  (payload, { maxSlippageBps := payload.maxSlippageBps, dryRun := payload.dryRun })

/-! ## Concrete fixtures used by witnesses and counterexamples -/

/-- A fixed-mode settings value watching the single address `"A"`. -/
def settingsA : CopySettings :=
  { targetAddresses := ["A"]
    copyFactor := 1
    maxSlippageBps := 100
    dryRun := false
    pollIntervalMs := 5000
    executionMode := ExecMode.fixed
    fixedSize := 5
    sellAllOnSell := false }

/-- Settings watching addresses `"A"` then `"B"`. -/
def settingsAB : CopySettings :=
  { settingsA with targetAddresses := ["A", "B"] }

/-- A first concrete fill. -/
def fill1 : GammaFill :=
  { id := "f1", marketId := "m1", outcomeId := "o1", side := Side.buy,
    price := 1, size := 10, timestamp := 100 }

/-- A second concrete fill, distinct id. -/
def fill2 : GammaFill :=
  { id := "f2", marketId := "m2", outcomeId := "o2", side := Side.buy,
    price := 2, size := 20, timestamp := 150 }

/-- Environment for the submission-failure scenario: both fills are
delivered, approvals succeed, and `mirrorOrder` rejects exactly the
order derived from `fill1`. -/
def envSubmitFail : TickEnv :=
  { fetch := fun _ _ => Except.ok [fill1, fill2]
    approvals := Except.ok ()
    mirror := fun r =>
      if r.marketId = "m1" then Except.error "venue rejected order"
      else Except.ok "0xabc" }

/-- Environment for the fault-isolation scenario: address `"A"`'s fetch
throws, `"B"`'s returns one fill, submissions succeed. -/
def envFaultIso : TickEnv :=
  { fetch := fun a _ =>
      if a = "A" then Except.error "ECONNRESET" else Except.ok [fill2]
    approvals := Except.ok ()
    mirror := fun _ => Except.ok "0xabc" }

/-- A dry-run execution settings value. -/
def execDry : ExecutionSettings := { maxSlippageBps := 100, dryRun := true }

/-- A live execution settings value. -/
def execLive : ExecutionSettings := { maxSlippageBps := 100, dryRun := false }

/-- A venue environment whose every call fails. -/
def pmEnvDown : PMEnv :=
  { clobAvailable := true
    fallbackPost := fun _ _ => Except.error "ETIMEDOUT"
    clobPost := fun _ => Except.error "ETIMEDOUT" }

/-- A venue environment whose CLOB path succeeds with an order id. -/
def pmEnvOk : PMEnv :=
  { clobAvailable := true
    fallbackPost := fun _ _ => Except.error "ETIMEDOUT"
    clobPost := fun _ => Except.ok (some "0xdeadbeef", none) }

/-- A concrete mirrored-order request. -/
def order1 : MirrorOrderRequest :=
  { marketId := "m1", outcomeId := "o1", side := Side.buy,
    price := 1/2, size := 10 }

/-- A raw wire fill as the `/v1/trades` candidate would return it. -/
def rawTrade1 : RawFill :=
  { RawFill.empty with
    tradeId := some "t1", marketId := some "m7", asset := some "a7",
    side := some "SELL", price := some 1, size := some 8,
    timestamp := some 1700 }

/-- An HTTP environment where the `/fills` candidate 404s, `/trades`
times out, and `/v1/trades` answers 200 with a `trades` payload: only
the third candidate succeeds. -/
def httpEnv3 : HttpEnv := fun url _params =>
  if url = "https://g/fills" then HttpOutcome.resp 404 RawData.null
  else if url = "https://g/trades" then HttpOutcome.netError "timeout of 12000ms exceeded"
  else if url = "https://g/v1/trades" then
    HttpOutcome.resp 200 (RawData.obj none (some [rawTrade1]))
  else HttpOutcome.netError "unreachable"

/-- The payload the renderer may hand to `copytrader:start` with an
out-of-range copy factor and slippage: nothing on the Electron path
clamps it. -/
def payloadWide : CopySettings :=
  { settingsA with copyFactor := 10, maxSlippageBps := 5000 }

/-- A sync state in which address `"A"` has already seen fill id
`"f1"`. -/
def stSeenF1 : SyncState :=
  { lastTs := [("A", 100)], seen := [("A", ["f1"])] }

/-- The submission candidate a tagged fill turns into in the submission
loop. -/
def subOf (settings : CopySettings) (tf : TaggedFill) : Submission :=
  { address := tf.address, fill := tf.fill,
    size := computeMirrorSize settings tf.fill }

/-- `true` exactly on `simulated` events (the `Simulated … (real
trading not enabled in this build)` log branch). -/
def isSimulated : Event → Bool
  | Event.simulated _ _ _ _ => true
  | _ => false

/-- A response pair (two optional id strings) free of the scheduler's
`skipped:client-unavailable` sentinel. -/
def noSentinelResp (p : Option String × Option String) : Prop :=
  (∀ x ∈ p.1, x ≠ "skipped:client-unavailable") ∧
  (∀ x ∈ p.2, x ≠ "skipped:client-unavailable")

/-- A venue environment none of whose successful responses carry the
`skipped:client-unavailable` sentinel as an id string. -/
def PMEnv.noSentinel (env : PMEnv) : Prop :=
  (∀ o slip p, env.fallbackPost o slip = Except.ok p → noSentinelResp p) ∧
  (∀ o p, env.clobPost o = Except.ok p → noSentinelResp p)

/-- The state `fetchPhase` threads to the remaining addresses after a
successful fetch for `address`: the seen-set entry is materialized, the
cursor is set to the scanned maximum, and the seen set to the scanned
set. -/
def st1Of (st : SyncState) (address : String) (fills : List GammaFill) : SyncState :=
  setSeen
    (setTs (setSeen st address (lookupSeen st address)) address
      (scanFills (lookupSeen st address) (lookupTs st address) fills).2.1)
    address
    (scanFills (lookupSeen st address) (lookupTs st address) fills).1

/-- Whether one candidate attempt fails (transport error, 401, 404, or
normalization throw) in a given HTTP environment. -/
def attemptFails (env : HttpEnv) (now : Nat) (a : Attempt) : Bool :=
  match attemptOutcome env now a with
  | Except.error _ => true
  | Except.ok _ => false

/-! ## Helper lemmas: association maps -/

theorem assocGet_set_self {α : Type} (l : List (String × α)) (a : String) (v : α) :
    assocGet (assocSet l a v) a = some v := by
  induction l with
  | nil => simp [assocSet, assocGet]
  | cons p rest ih =>
    obtain ⟨k, w⟩ := p
    by_cases h : k = a <;> simp [assocSet, assocGet, h, ih]

theorem assocGet_set_ne {α : Type} (l : List (String × α)) (a b : String) (v : α)
    (h : b ≠ a) : assocGet (assocSet l a v) b = assocGet l b := by
  induction l with
  | nil => simp [assocSet, assocGet, h.symm]
  | cons p rest ih =>
    obtain ⟨k, w⟩ := p
    by_cases hk : k = a
    · subst hk
      simp [assocSet, assocGet, h.symm]
    · simp [assocSet, assocGet, hk, ih]

theorem lookupSeen_setSeen_self (st : SyncState) (a : String) (s : List String) :
    lookupSeen (setSeen st a s) a = s := by
  simp [lookupSeen, setSeen, assocGet_set_self]

theorem lookupSeen_setSeen_ne (st : SyncState) (a b : String) (s : List String)
    (h : b ≠ a) : lookupSeen (setSeen st a s) b = lookupSeen st b := by
  simp [lookupSeen, setSeen, assocGet_set_ne _ _ _ _ h]

theorem lookupSeen_setSeen_same (st : SyncState) (a b : String) :
    lookupSeen (setSeen st a (lookupSeen st a)) b = lookupSeen st b := by
  by_cases h : b = a
  · subst h; exact lookupSeen_setSeen_self st b _
  · exact lookupSeen_setSeen_ne st a b _ h

theorem lookupTs_setSeen (st : SyncState) (a : String) (s : List String)
    (b : String) : lookupTs (setSeen st a s) b = lookupTs st b := rfl

theorem lookupSeen_setTs (st : SyncState) (a : String) (t : Nat) (b : String) :
    lookupSeen (setTs st a t) b = lookupSeen st b := rfl

theorem lookupTs_setTs_self (st : SyncState) (a : String) (t : Nat) :
    lookupTs (setTs st a t) a = t := by
  simp [lookupTs, setTs, assocGet_set_self]

theorem lookupTs_setTs_ne (st : SyncState) (a b : String) (t : Nat) (h : b ≠ a) :
    lookupTs (setTs st a t) b = lookupTs st b := by
  simp [lookupTs, setTs, assocGet_set_ne _ _ _ _ h]

/-! ## Helper lemmas: `scanFills` -/

theorem scanFills_newIds (fs : List GammaFill) : ∀ (seen : List String) (last : Nat),
    ∀ f ∈ (scanFills seen last fs).2.2, f.id ∉ seen := by
  induction fs with
  | nil => intro seen last f hf; simp [scanFills] at hf
  | cons g rest ih =>
    intro seen last f hf
    by_cases hg : g.id ∈ seen
    · simp only [scanFills, if_pos hg] at hf
      exact ih seen _ f hf
    · simp only [scanFills, if_neg hg] at hf
      rcases List.mem_cons.mp hf with h | h
      · subst h; exact hg
      · intro hmem
        exact ih _ _ f h (List.mem_cons_of_mem _ hmem)

theorem scanFills_seen_mono (fs : List GammaFill) : ∀ (seen : List String) (last : Nat),
    ∀ x ∈ seen, x ∈ (scanFills seen last fs).1 := by
  induction fs with
  | nil => intro seen last x hx; simpa [scanFills] using hx
  | cons g rest ih =>
    intro seen last x hx
    by_cases hg : g.id ∈ seen
    · simp only [scanFills, if_pos hg]
      exact ih seen _ x hx
    · simp only [scanFills, if_neg hg]
      exact ih _ _ x (List.mem_cons_of_mem _ hx)

theorem scanFills_mem_result (fs : List GammaFill) : ∀ (seen : List String) (last : Nat),
    ∀ f ∈ (scanFills seen last fs).2.2, f.id ∈ (scanFills seen last fs).1 := by
  induction fs with
  | nil => intro seen last f hf; simp [scanFills] at hf
  | cons g rest ih =>
    intro seen last f hf
    by_cases hg : g.id ∈ seen
    · simp only [scanFills, if_pos hg] at hf ⊢
      exact ih seen _ f hf
    · simp only [scanFills, if_neg hg] at hf ⊢
      rcases List.mem_cons.mp hf with h | h
      · subst h
        exact scanFills_seen_mono rest _ _ f.id (List.mem_cons_self _ _)
      · exact ih _ _ f h

theorem scanFills_count_le_one (fs : List GammaFill) :
    ∀ (seen : List String) (last : Nat) (fid : String),
    (scanFills seen last fs).2.2.countP (fun f => decide (f.id = fid)) ≤ 1 := by
  induction fs with
  | nil => intro seen last fid; simp [scanFills]
  | cons g rest ih =>
    intro seen last fid
    by_cases hg : g.id ∈ seen
    · simp only [scanFills, if_pos hg]
      exact ih seen _ fid
    · simp only [scanFills, if_neg hg, List.countP_cons]
      by_cases hid : g.id = fid
      · have hz : (scanFills (g.id :: seen) (max last g.timestamp) rest).2.2.countP
            (fun f => decide (f.id = fid)) = 0 := by
          rw [List.countP_eq_zero]
          intro f hf
          have h1 : f.id ∉ g.id :: seen := scanFills_newIds rest _ _ f hf
          have h2 : f.id ≠ g.id := fun hc => h1 (hc ▸ List.mem_cons_self _ _)
          simp only [decide_eq_true_eq]
          rw [← hid]
          exact h2
        rw [hz]
        simp [hid]
      · simpa [hid] using ih _ _ fid

theorem scanFills_cursor (fs : List GammaFill) : ∀ (seen : List String) (last : Nat),
    (scanFills seen last fs).2.1 =
      fs.foldl (fun acc f => max acc f.timestamp) last := by
  induction fs with
  | nil => intro seen last; simp [scanFills]
  | cons g rest ih =>
    intro seen last
    by_cases hg : g.id ∈ seen <;>
      simp only [scanFills, if_pos, if_neg, hg, List.foldl_cons] <;>
      exact ih _ _

theorem scanFills_cursor_mono (fs : List GammaFill) :
    ∀ (seen : List String) (last : Nat), last ≤ (scanFills seen last fs).2.1 := by
  induction fs with
  | nil => intro seen last; simp [scanFills]
  | cons g rest ih =>
    intro seen last
    by_cases hg : g.id ∈ seen
    · simp only [scanFills, if_pos hg]
      exact le_trans (le_max_left _ _) (ih _ _)
    · simp only [scanFills, if_neg hg]
      exact le_trans (le_max_left _ _) (ih _ _)

/-! ## Helper lemmas: `fetchPhase` -/

theorem lookupSeen_st1_self (st : SyncState) (address : String)
    (fills : List GammaFill) :
    lookupSeen (st1Of st address fills) address =
      (scanFills (lookupSeen st address) (lookupTs st address) fills).1 :=
  lookupSeen_setSeen_self _ _ _

theorem lookupSeen_st1_ne (st : SyncState) (address b : String)
    (fills : List GammaFill) (h : b ≠ address) :
    lookupSeen (st1Of st address fills) b = lookupSeen st b := by
  unfold st1Of
  rw [lookupSeen_setSeen_ne _ _ _ _ h, lookupSeen_setTs, lookupSeen_setSeen_same]

theorem lookupSeen_st1_mono (st : SyncState) (address b : String)
    (fills : List GammaFill) :
    ∀ x ∈ lookupSeen st b, x ∈ lookupSeen (st1Of st address fills) b := by
  intro x hx
  by_cases h : b = address
  · subst h
    rw [lookupSeen_st1_self]
    exact scanFills_seen_mono fills _ _ x hx
  · rwa [lookupSeen_st1_ne _ _ _ _ h]

theorem lookupTs_st1_self (st : SyncState) (address : String)
    (fills : List GammaFill) :
    lookupTs (st1Of st address fills) address =
      (scanFills (lookupSeen st address) (lookupTs st address) fills).2.1 := by
  unfold st1Of
  rw [lookupTs_setSeen, lookupTs_setTs_self]

theorem lookupTs_st1_ne (st : SyncState) (address b : String)
    (fills : List GammaFill) (h : b ≠ address) :
    lookupTs (st1Of st address fills) b = lookupTs st b := by
  unfold st1Of
  rw [lookupTs_setSeen, lookupTs_setTs_ne _ _ _ _ h, lookupTs_setSeen]

theorem fetchPhase_cons_error (fetch : String → Nat → Except String (List GammaFill))
    (st : SyncState) (address : String) (rest : List String) (e : String)
    (h : fetch address (lookupTs st address) = Except.error e) :
    fetchPhase fetch st (address :: rest) =
      ((fetchPhase fetch (setSeen st address (lookupSeen st address)) rest).1,
       Event.checking address (lookupTs st address) :: Event.errorEvent e ::
         (fetchPhase fetch (setSeen st address (lookupSeen st address)) rest).2.1,
       (fetchPhase fetch (setSeen st address (lookupSeen st address)) rest).2.2) := by
  simp only [fetchPhase, h]

theorem fetchPhase_cons_ok (fetch : String → Nat → Except String (List GammaFill))
    (st : SyncState) (address : String) (rest : List String)
    (fills : List GammaFill)
    (h : fetch address (lookupTs st address) = Except.ok fills) :
    fetchPhase fetch st (address :: rest) =
      ((fetchPhase fetch (st1Of st address fills) rest).1,
       Event.checking address (lookupTs st address) ::
         Event.found address fills.length ::
         (fetchPhase fetch (st1Of st address fills) rest).2.1,
       (scanFills (lookupSeen st address) (lookupTs st address) fills).2.2.map
           (fun f => TaggedFill.mk address f) ++
         (fetchPhase fetch (st1Of st address fills) rest).2.2) := by
  simp only [fetchPhase, h, st1Of]

theorem fetchPhase_seen_mono (fetch : String → Nat → Except String (List GammaFill))
    (addrs : List String) : ∀ (st : SyncState) (a x : String),
    x ∈ lookupSeen st a → x ∈ lookupSeen (fetchPhase fetch st addrs).1 a := by
  induction addrs with
  | nil => intro st a x hx; simpa [fetchPhase] using hx
  | cons address rest ih =>
    intro st a x hx
    cases hfetch : fetch address (lookupTs st address) with
    | error e =>
      rw [fetchPhase_cons_error fetch st address rest e hfetch]
      exact ih _ a x (by rwa [lookupSeen_setSeen_same])
    | ok fills =>
      rw [fetchPhase_cons_ok fetch st address rest fills hfetch]
      exact ih _ a x (lookupSeen_st1_mono st address a fills x hx)

theorem fetchPhase_ts_mono (fetch : String → Nat → Except String (List GammaFill))
    (addrs : List String) : ∀ (st : SyncState) (a : String),
    lookupTs st a ≤ lookupTs (fetchPhase fetch st addrs).1 a := by
  induction addrs with
  | nil => intro st a; simp [fetchPhase]
  | cons address rest ih =>
    intro st a
    cases hfetch : fetch address (lookupTs st address) with
    | error e =>
      rw [fetchPhase_cons_error fetch st address rest e hfetch]
      exact ih (setSeen st address (lookupSeen st address)) a
    | ok fills =>
      rw [fetchPhase_cons_ok fetch st address rest fills hfetch]
      refine le_trans ?_ (ih (st1Of st address fills) a)
      by_cases h : a = address
      · subst h
        rw [lookupTs_st1_self]
        exact scanFills_cursor_mono fills _ _
      · rw [lookupTs_st1_ne _ _ _ _ h]

theorem fetchPhase_agg_new (fetch : String → Nat → Except String (List GammaFill))
    (addrs : List String) : ∀ (st : SyncState),
    ∀ tf ∈ (fetchPhase fetch st addrs).2.2, tf.fill.id ∉ lookupSeen st tf.address := by
  induction addrs with
  | nil => intro st tf htf; simp [fetchPhase] at htf
  | cons address rest ih =>
    intro st tf htf
    cases hfetch : fetch address (lookupTs st address) with
    | error e =>
      rw [fetchPhase_cons_error fetch st address rest e hfetch] at htf
      have := ih _ tf htf
      rwa [lookupSeen_setSeen_same] at this
    | ok fills =>
      rw [fetchPhase_cons_ok fetch st address rest fills hfetch] at htf
      rcases List.mem_append.mp htf with hmem | hmem
      · rcases List.mem_map.mp hmem with ⟨f, hf, rfl⟩
        exact scanFills_newIds fills _ _ f hf
      · intro hc
        exact ih _ tf hmem (lookupSeen_st1_mono st address tf.address fills _ hc)

theorem fetchPhase_agg_recorded (fetch : String → Nat → Except String (List GammaFill))
    (addrs : List String) : ∀ (st : SyncState),
    ∀ tf ∈ (fetchPhase fetch st addrs).2.2,
      tf.fill.id ∈ lookupSeen (fetchPhase fetch st addrs).1 tf.address := by
  induction addrs with
  | nil => intro st tf htf; simp [fetchPhase] at htf
  | cons address rest ih =>
    intro st tf htf
    cases hfetch : fetch address (lookupTs st address) with
    | error e =>
      rw [fetchPhase_cons_error fetch st address rest e hfetch] at htf ⊢
      exact ih _ tf htf
    | ok fills =>
      rw [fetchPhase_cons_ok fetch st address rest fills hfetch] at htf ⊢
      rcases List.mem_append.mp htf with hmem | hmem
      · rcases List.mem_map.mp hmem with ⟨f, hf, rfl⟩
        apply fetchPhase_seen_mono fetch rest (st1Of st address fills) address f.id
        rw [lookupSeen_st1_self]
        exact scanFills_mem_result fills _ _ f hf
      · exact ih _ tf hmem

theorem fetchPhase_agg_count (fetch : String → Nat → Except String (List GammaFill))
    (addrs : List String) : ∀ (st : SyncState) (a fid : String),
    (fetchPhase fetch st addrs).2.2.countP
        (fun tf => decide (tf.address = a ∧ tf.fill.id = fid)) ≤ 1 := by
  induction addrs with
  | nil => intro st a fid; simp [fetchPhase]
  | cons address rest ih =>
    intro st a fid
    cases hfetch : fetch address (lookupTs st address) with
    | error e =>
      rw [fetchPhase_cons_error fetch st address rest e hfetch]
      exact ih _ a fid
    | ok fills =>
      rw [fetchPhase_cons_ok fetch st address rest fills hfetch,
        List.countP_append, List.countP_map]
      by_cases ha : address = a
      · subst ha
        have hmapped :
            ((scanFills (lookupSeen st address) (lookupTs st address) fills).2.2.countP
              ((fun tf => decide (tf.address = address ∧ tf.fill.id = fid)) ∘
                fun f => TaggedFill.mk address f)) =
            ((scanFills (lookupSeen st address) (lookupTs st address) fills).2.2.countP
              (fun f => decide (f.id = fid))) := by
          apply List.countP_congr
          intro f _
          simp [Function.comp]
        rw [hmapped]
        rcases Nat.eq_zero_or_pos
            ((scanFills (lookupSeen st address) (lookupTs st address) fills).2.2.countP
              (fun f => decide (f.id = fid))) with hz | hp
        · rw [hz, Nat.zero_add]
          exact ih _ address fid
        · obtain ⟨f, hf, hfid⟩ := List.countP_pos_iff.mp hp
          have hfid2 : f.id = fid := of_decide_eq_true hfid
          have hmem : fid ∈ lookupSeen (st1Of st address fills) address := by
            rw [lookupSeen_st1_self]
            exact hfid2 ▸ scanFills_mem_result fills _ _ f hf
          have hrest :
              (fetchPhase fetch (st1Of st address fills) rest).2.2.countP
                (fun tf => decide (tf.address = address ∧ tf.fill.id = fid)) = 0 := by
            rw [List.countP_eq_zero]
            intro tf htf
            simp only [decide_eq_true_eq, not_and]
            intro haddr hid
            apply fetchPhase_agg_new fetch rest _ tf htf
            rw [haddr, hid]
            exact hmem
          rw [hrest, Nat.add_zero]
          exact scanFills_count_le_one fills _ _ fid
      · have hzero :
            ((scanFills (lookupSeen st address) (lookupTs st address) fills).2.2.countP
              ((fun tf => decide (tf.address = a ∧ tf.fill.id = fid)) ∘
                fun f => TaggedFill.mk address f)) = 0 := by
          rw [List.countP_eq_zero]
          intro f _
          simp [Function.comp, ha]
        rw [hzero, Nat.zero_add]
        exact ih _ a fid

/-! ## Helper lemmas: `submitPhase` and `tick` -/

theorem submitPhase_cons_error (mirror : MirrorOrderRequest → Except String String)
    (settings : CopySettings) (tf : TaggedFill) (rest : List TaggedFill) (e : String)
    (h : mirror (toRequest tf.fill (computeMirrorSize settings tf.fill)) =
      Except.error e) :
    submitPhase mirror settings (tf :: rest) =
      ([Event.errorEvent e], [subOf settings tf], true) := by
  simp only [submitPhase, h, subOf]

theorem submitPhase_cons_ok (mirror : MirrorOrderRequest → Except String String)
    (settings : CopySettings) (tf : TaggedFill) (rest : List TaggedFill) (tx : String)
    (h : mirror (toRequest tf.fill (computeMirrorSize settings tf.fill)) =
      Except.ok tx) :
    submitPhase mirror settings (tf :: rest) =
      ((if tx = "skipped:client-unavailable" then
          Event.simulated tf.address tf.fill.side (computeMirrorSize settings tf.fill)
            tf.fill.price
        else
          Event.mirrored tf.address tf.fill.side (computeMirrorSize settings tf.fill)
            tf.fill.price tf.fill.marketId tf.fill.outcomeId tx) ::
          (submitPhase mirror settings rest).1,
       subOf settings tf :: (submitPhase mirror settings rest).2.1,
       (submitPhase mirror settings rest).2.2) := by
  simp only [submitPhase, h, subOf]

theorem submitPhase_subs_take (mirror : MirrorOrderRequest → Except String String)
    (settings : CopySettings) (tfs : List TaggedFill) :
    ∃ k, (submitPhase mirror settings tfs).2.1 = (tfs.take k).map (subOf settings) := by
  induction tfs with
  | nil => exact ⟨0, rfl⟩
  | cons tf rest ih =>
    cases h : mirror (toRequest tf.fill (computeMirrorSize settings tf.fill)) with
    | error e =>
      refine ⟨1, ?_⟩
      rw [submitPhase_cons_error mirror settings tf rest e h]
      rfl
    | ok tx =>
      obtain ⟨k, hk⟩ := ih
      refine ⟨k + 1, ?_⟩
      rw [submitPhase_cons_ok mirror settings tf rest tx h]
      simp [hk]

theorem submitPhase_subCount_le (mirror : MirrorOrderRequest → Except String String)
    (settings : CopySettings) (tfs : List TaggedFill) (a fid : String) :
    subCount (submitPhase mirror settings tfs).2.1 a fid ≤
      tfs.countP (fun tf => decide (tf.address = a ∧ tf.fill.id = fid)) := by
  obtain ⟨k, hk⟩ := submitPhase_subs_take mirror settings tfs
  rw [hk]
  unfold subCount
  rw [List.countP_map]
  have hcong : (tfs.take k).countP
      ((fun s => decide (s.address = a ∧ s.fill.id = fid)) ∘ subOf settings) =
      (tfs.take k).countP (fun tf => decide (tf.address = a ∧ tf.fill.id = fid)) := by
    apply List.countP_congr
    intro tf _
    rfl
  rw [hcong]
  exact (List.take_sublist k tfs).countP_le _

theorem submitPhase_no_simulated (mirror : MirrorOrderRequest → Except String String)
    (settings : CopySettings)
    (hm : ∀ req r, mirror req = Except.ok r → r ≠ "skipped:client-unavailable") :
    ∀ tfs, ∀ ev ∈ (submitPhase mirror settings tfs).1, isSimulated ev = false := by
  intro tfs
  induction tfs with
  | nil => intro ev hev; simp [submitPhase] at hev
  | cons tf rest ih =>
    intro ev hev
    cases h : mirror (toRequest tf.fill (computeMirrorSize settings tf.fill)) with
    | error e =>
      rw [submitPhase_cons_error mirror settings tf rest e h] at hev
      rcases List.mem_cons.mp hev with rfl | hmem
      · rfl
      · simp at hmem
    | ok tx =>
      rw [submitPhase_cons_ok mirror settings tf rest tx h] at hev
      rcases List.mem_cons.mp hev with rfl | hmem
      · rw [if_neg (hm _ tx h)]
        rfl
      · exact ih ev hmem

theorem fetchPhase_no_simulated (fetch : String → Nat → Except String (List GammaFill))
    (addrs : List String) : ∀ st, ∀ ev ∈ (fetchPhase fetch st addrs).2.1,
    isSimulated ev = false := by
  induction addrs with
  | nil => intro st ev hev; simp [fetchPhase] at hev
  | cons address rest ih =>
    intro st ev hev
    cases hfetch : fetch address (lookupTs st address) with
    | error e =>
      rw [fetchPhase_cons_error fetch st address rest e hfetch] at hev
      rcases List.mem_cons.mp hev with rfl | hev2
      · rfl
      · rcases List.mem_cons.mp hev2 with rfl | hev3
        · rfl
        · exact ih _ ev hev3
    | ok fills =>
      rw [fetchPhase_cons_ok fetch st address rest fills hfetch] at hev
      rcases List.mem_cons.mp hev with rfl | hev2
      · rfl
      · rcases List.mem_cons.mp hev2 with rfl | hev3
        · rfl
        · exact ih _ ev hev3

theorem tick_cases (env : TickEnv) (settings : CopySettings) (running : Bool)
    (st : SyncState) :
    ((tick env settings running st).state = st ∧
      (tick env settings running st).subs = []) ∨
    ((tick env settings running st).state =
        (fetchPhase env.fetch st settings.targetAddresses).1 ∧
      ((tick env settings running st).subs = [] ∨
       (tick env settings running st).subs =
         (submitPhase env.mirror settings
           (fetchPhase env.fetch st settings.targetAddresses).2.2).2.1)) := by
  cases running with
  | false => exact Or.inl ⟨rfl, rfl⟩
  | true =>
    by_cases he : (fetchPhase env.fetch st settings.targetAddresses).2.2.isEmpty
    · refine Or.inr ⟨?_, Or.inl ?_⟩ <;> simp [tick, he]
    · cases ha : env.approvals with
      | error e => refine Or.inr ⟨?_, Or.inl ?_⟩ <;> simp [tick, he, ha]
      | ok u => refine Or.inr ⟨?_, Or.inr ?_⟩ <;> simp [tick, he, ha]

theorem tick_seen_mono (env : TickEnv) (settings : CopySettings) (running : Bool)
    (st : SyncState) (a x : String) (hx : x ∈ lookupSeen st a) :
    x ∈ lookupSeen (tick env settings running st).state a := by
  rcases tick_cases env settings running st with ⟨hs, _⟩ | ⟨hs, _⟩
  · rwa [hs]
  · rw [hs]
    exact fetchPhase_seen_mono env.fetch settings.targetAddresses st a x hx

theorem tick_ts_mono (env : TickEnv) (settings : CopySettings) (running : Bool)
    (st : SyncState) (a : String) :
    lookupTs st a ≤ lookupTs (tick env settings running st).state a := by
  rcases tick_cases env settings running st with ⟨hs, _⟩ | ⟨hs, _⟩
  · rw [hs]
  · rw [hs]
    exact fetchPhase_ts_mono env.fetch settings.targetAddresses st a

theorem tick_subCount_le (env : TickEnv) (settings : CopySettings) (running : Bool)
    (st : SyncState) (a fid : String) :
    subCount (tick env settings running st).subs a fid ≤
      (fetchPhase env.fetch st settings.targetAddresses).2.2.countP
        (fun tf => decide (tf.address = a ∧ tf.fill.id = fid)) := by
  rcases tick_cases env settings running st with ⟨_, hsub⟩ | ⟨_, hsub | hsub⟩
  · rw [hsub]; exact Nat.zero_le _
  · rw [hsub]; exact Nat.zero_le _
  · rw [hsub]
    exact submitPhase_subCount_le env.mirror settings _ a fid

theorem tick_subCount_seen (env : TickEnv) (settings : CopySettings) (running : Bool)
    (st : SyncState) (a fid : String) (hmem : fid ∈ lookupSeen st a) :
    subCount (tick env settings running st).subs a fid = 0 := by
  have hz : (fetchPhase env.fetch st settings.targetAddresses).2.2.countP
      (fun tf => decide (tf.address = a ∧ tf.fill.id = fid)) = 0 := by
    rw [List.countP_eq_zero]
    intro tf htf
    simp only [decide_eq_true_eq, not_and]
    intro haddr hid
    apply fetchPhase_agg_new env.fetch settings.targetAddresses st tf htf
    rw [haddr, hid]
    exact hmem
  have := tick_subCount_le env settings running st a fid
  omega

theorem tick_subCount_le_one (env : TickEnv) (settings : CopySettings) (running : Bool)
    (st : SyncState) (a fid : String) :
    subCount (tick env settings running st).subs a fid ≤ 1 := by
  have h1 := tick_subCount_le env settings running st a fid
  have h2 := fetchPhase_agg_count env.fetch settings.targetAddresses st a fid
  omega

theorem tick_subCount_recorded (env : TickEnv) (settings : CopySettings)
    (running : Bool) (st : SyncState) (a fid : String)
    (hp : 0 < subCount (tick env settings running st).subs a fid) :
    fid ∈ lookupSeen (tick env settings running st).state a := by
  rcases tick_cases env settings running st with ⟨_, hsub⟩ | ⟨hs, hsub | hsub⟩
  · rw [hsub] at hp; simp [subCount] at hp
  · rw [hsub] at hp; simp [subCount] at hp
  · have hle := tick_subCount_le env settings running st a fid
    have hpagg : 0 < (fetchPhase env.fetch st settings.targetAddresses).2.2.countP
        (fun tf => decide (tf.address = a ∧ tf.fill.id = fid)) := by omega
    obtain ⟨tf, htf, hpf⟩ := List.countP_pos_iff.mp hpagg
    have hpf2 := of_decide_eq_true hpf
    rw [hs, ← hpf2.1, ← hpf2.2]
    exact fetchPhase_agg_recorded env.fetch settings.targetAddresses st tf htf

theorem submitPhase_abort (mirror : MirrorOrderRequest → Except String String)
    (settings : CopySettings) (pre : List TaggedFill) (tf : TaggedFill)
    (post : List TaggedFill) (e : String)
    (hpre : ∀ b ∈ pre, ∃ tx,
      mirror (toRequest b.fill (computeMirrorSize settings b.fill)) = Except.ok tx)
    (hf : mirror (toRequest tf.fill (computeMirrorSize settings tf.fill)) =
      Except.error e) :
    (submitPhase mirror settings (pre ++ tf :: post)).2.1 =
        (pre ++ [tf]).map (subOf settings) ∧
    (submitPhase mirror settings (pre ++ tf :: post)).2.2 = true ∧
    (submitPhase mirror settings (pre ++ tf :: post)).1.getLast? =
        some (Event.errorEvent e) := by
  induction pre with
  | nil =>
    rw [List.nil_append, submitPhase_cons_error mirror settings tf post e hf]
    exact ⟨rfl, rfl, rfl⟩
  | cons b pre ih =>
    obtain ⟨tx, htx⟩ := hpre b (List.mem_cons_self _ _)
    have hrest := ih (fun c hc => hpre c (List.mem_cons_of_mem _ hc))
    rw [List.cons_append,
      submitPhase_cons_ok mirror settings b (pre ++ tf :: post) tx htx]
    refine ⟨?_, hrest.2.1, ?_⟩
    · simp only [hrest.1, List.cons_append, List.map_cons]
    · have h1 := hrest.2.2
      cases hl : (submitPhase mirror settings (pre ++ tf :: post)).1 with
      | nil => rw [hl] at h1; simp at h1
      | cons x xs =>
        rw [hl] at h1
        exact List.getLast?_cons_cons.trans h1

theorem tick_no_simulated (env : TickEnv) (settings : CopySettings) (running : Bool)
    (st : SyncState)
    (hm : ∀ req r, env.mirror req = Except.ok r →
      r ≠ "skipped:client-unavailable") :
    ∀ ev ∈ (tick env settings running st).events, isSimulated ev = false := by
  intro ev hev
  cases running with
  | false => simp [tick] at hev
  | true =>
    by_cases he : (fetchPhase env.fetch st settings.targetAddresses).2.2.isEmpty
    · simp only [tick, he, if_true] at hev
      rcases List.mem_append.mp hev with h | h
      · exact fetchPhase_no_simulated env.fetch settings.targetAddresses st ev h
      · rcases List.mem_singleton.mp h with rfl
        rfl
    · cases ha : env.approvals with
      | error e2 =>
        simp only [tick, he, if_false, ha] at hev
        rcases List.mem_append.mp hev with h | h
        · exact fetchPhase_no_simulated env.fetch settings.targetAddresses st ev h
        · rcases List.mem_singleton.mp h with rfl
          rfl
      | ok u =>
        simp only [tick, he, if_false, ha] at hev
        rcases List.mem_append.mp hev with h | h
        · exact fetchPhase_no_simulated env.fetch settings.targetAddresses st ev h
        · exact submitPhase_no_simulated env.mirror settings hm _ ev h

/-! ## Helper lemmas: `runTicks` -/

theorem subCount_append (l1 l2 : List Submission) (a fid : String) :
    subCount (l1 ++ l2) a fid = subCount l1 a fid + subCount l2 a fid :=
  List.countP_append _ _ _

theorem runTicks_subs_cons (settings : CopySettings) (st : SyncState)
    (env : TickEnv) (rest : List TickEnv) :
    (runTicks settings st (env :: rest)).2.2 =
      (tick env settings true st).subs ++
        (runTicks settings (tick env settings true st).state rest).2.2 := rfl

theorem runTicks_state_cons (settings : CopySettings) (st : SyncState)
    (env : TickEnv) (rest : List TickEnv) :
    (runTicks settings st (env :: rest)).1 =
      (runTicks settings (tick env settings true st).state rest).1 := rfl

theorem runTicks_dedup (settings : CopySettings) (envs : List TickEnv) :
    ∀ st : SyncState,
    (∀ a fid, fid ∈ lookupSeen st a →
      subCount (runTicks settings st envs).2.2 a fid = 0) ∧
    (∀ a fid, subCount (runTicks settings st envs).2.2 a fid ≤ 1) := by
  induction envs with
  | nil =>
    intro st
    constructor <;> intro a fid <;> simp [runTicks, subCount]
  | cons env rest ih =>
    intro st
    constructor
    · intro a fid hmem
      rw [runTicks_subs_cons, subCount_append,
        tick_subCount_seen env settings true st a fid hmem,
        (ih (tick env settings true st).state).1 a fid
          (tick_seen_mono env settings true st a fid hmem)]
    · intro a fid
      rw [runTicks_subs_cons, subCount_append]
      rcases Nat.eq_zero_or_pos (subCount (tick env settings true st).subs a fid)
        with hz | hp
      · rw [hz, Nat.zero_add]
        exact (ih _).2 a fid
      · have h1 := tick_subCount_le_one env settings true st a fid
        have hrec := tick_subCount_recorded env settings true st a fid hp
        rw [(ih _).1 a fid hrec, Nat.add_zero]
        exact h1

theorem runTicks_ts_mono (settings : CopySettings) (envs : List TickEnv) :
    ∀ (st : SyncState) (a : String),
    lookupTs st a ≤ lookupTs (runTicks settings st envs).1 a := by
  induction envs with
  | nil => intro st a; simp [runTicks]
  | cons env rest ih =>
    intro st a
    rw [runTicks_state_cons]
    exact le_trans (tick_ts_mono env settings true st a)
      (ih (tick env settings true st).state a)

/-! ## Claim theorems -/

/-- C4: for every fill and settings, the mirrored order size is
`settings.fixedSize` in fixed mode, `fill.size * settings.copyFactor`
in percent mode, and — overriding both modes — the full-liquidation
sentinel `1` whenever the fill is a sell and `sellAllOnSell` is set,
regardless of `copyFactor`, `fixedSize`, or `fill.size`.  The spec's
concrete cases are included: percent with `copyFactor = 1.5` and
`size = 10` gives `15`; fixed with `fixedSize = 5` gives `5` for any
fill size; a sell with `sellAllOnSell` gives `1` in every mode. -/
theorem sizing_policy (settings : CopySettings) (f : GammaFill) :
    computeMirrorSize settings f =
      (if f.side = Side.sell ∧ settings.sellAllOnSell then 1
       else if settings.executionMode = ExecMode.fixed then settings.fixedSize
       else f.size * settings.copyFactor) ∧
    computeMirrorSize
      { settingsA with executionMode := ExecMode.percent, copyFactor := 3/2 }
      { fill1 with size := 10 } = 15 ∧
    computeMirrorSize settingsA { fill1 with size := 999 } = 5 ∧
    (∀ (em : ExecMode) (cf fs : Rat),
      computeMirrorSize
        { settingsA with
            executionMode := em
            copyFactor := cf
            fixedSize := fs
            sellAllOnSell := true }
        { fill1 with side := Side.sell } = 1) := by
  refine ⟨?_, ?_, ?_, ?_⟩
  · unfold computeMirrorSize
    by_cases h1 : f.side = Side.sell ∧ settings.sellAllOnSell <;>
      by_cases h2 : settings.executionMode = ExecMode.fixed <;>
      simp [h1, h2]
  · norm_num [computeMirrorSize, settingsA, fill1]
    decide
  · norm_num [computeMirrorSize, settingsA, fill1]
  · intro em cf fs
    simp [computeMirrorSize, settingsA, fill1]

/-- C9: `start()` is a no-op when the service is already running (state
unchanged, no timer armed, no immediate tick); from the stopped state
it transitions to running, arms exactly one interval timer at
`pollIntervalMs`, and triggers exactly one immediate tick. -/
theorem start_idempotent (settings : CopySettings) (ctl : SchedulerCtl) :
    (ctl.running = true →
      serviceStart settings ctl = { ctl := ctl, timersArmed := 0, immediateTicks := 0 }) ∧
    (ctl.running = false →
      serviceStart settings ctl =
        { ctl := { running := true, intervalId := some settings.pollIntervalMs }
          timersArmed := 1, immediateTicks := 1 }) := by
  constructor <;> intro h <;> simp [serviceStart, h]

/-- Witness for C9 at concrete scheduler states. -/
theorem start_idempotent_witness :
    serviceStart settingsA { running := true, intervalId := some 5000 } =
      { ctl := { running := true, intervalId := some 5000 }
        timersArmed := 0, immediateTicks := 0 } ∧
    serviceStart settingsA { running := false, intervalId := none } =
      { ctl := { running := true, intervalId := some 5000 }
        timersArmed := 1, immediateTicks := 1 } :=
  ⟨(start_idempotent settingsA { running := true, intervalId := some 5000 }).1 rfl,
   (start_idempotent settingsA { running := false, intervalId := none }).2 rfl⟩

/-- C6: with `dryRun = true`, `mirrorOrder` never touches the venue
environment — its result is the deterministic token computed from the
request's market, outcome, side, size, price and the configured
slippage only, and is identical across any two environments. -/
theorem dry_run_pure (env env2 : PMEnv) (s : ExecutionSettings)
    (o : MirrorOrderRequest) (h : s.dryRun = true) :
    mirrorOrder env s o = Except.ok (dryRunToken s.maxSlippageBps o) ∧
    mirrorOrder env s o = mirrorOrder env2 s o := by
  constructor <;> simp [mirrorOrder, h]

/-- Witness for C6 at a concrete dry-run configuration and two
different venue environments. -/
theorem dry_run_pure_witness :
    mirrorOrder pmEnvOk execDry order1 = Except.ok (dryRunToken 100 order1) ∧
    mirrorOrder pmEnvOk execDry order1 = mirrorOrder pmEnvDown execDry order1 :=
  dry_run_pure pmEnvOk pmEnvDown execDry order1 rfl

theorem dryRunToken_ne_sentinel (m : Rat) (o : MirrorOrderRequest) :
    dryRunToken m o ≠ "skipped:client-unavailable" := by
  unfold dryRunToken
  intro h
  have hd := congrArg String.data h
  simp only [String.data_append] at hd
  simp [String.data] at hd

/-- C10: `mirrorOrder` never returns `skipped:client-unavailable` — it
yields the dry-run token, a venue-supplied order id / transaction hash,
or the literal `submitted`, and throws on failure.  Consequently, for
any environment whose venue-supplied id strings are not that sentinel,
the Scheduler's `Simulated … (real trading not enabled in this build)`
branch is unreachable in every tick: no `simulated` event is ever
emitted, and every successful submission is reported through the
`Mirrored` log path. -/
theorem mirror_no_sentinel (env : PMEnv) (s : ExecutionSettings)
    (h : env.noSentinel) :
    (∀ o r, mirrorOrder env s o = Except.ok r →
      r ≠ "skipped:client-unavailable") ∧
    (∀ (fetch : String → Nat → Except String (List GammaFill))
        (approvals : Except String Unit) (settings : CopySettings)
        (running : Bool) (st : SyncState),
      ∀ ev ∈ (tick (TickEnv.mk fetch approvals (mirrorOrder env s))
          settings running st).events,
        isSimulated ev = false) := by
  have hok : ∀ o r, mirrorOrder env s o = Except.ok r →
      r ≠ "skipped:client-unavailable" := by
    intro o r hr
    unfold mirrorOrder at hr
    by_cases hd : s.dryRun = true
    · simp only [hd, if_true] at hr
      injection hr with h2
      subst h2
      exact dryRunToken_ne_sentinel s.maxSlippageBps o
    · simp only [hd, if_false] at hr
      by_cases hc : env.clobAvailable = false
      · rw [if_pos hc] at hr
        cases hfb : env.fallbackPost o (s.maxSlippageBps / 10000) with
        | error e => rw [hfb] at hr; exact Except.noConfusion hr
        | ok p =>
          obtain ⟨h1, th⟩ := p
          rw [hfb] at hr
          injection hr with h2
          subst h2
          have hns := h.1 o _ (h1, th) hfb
          cases h1 with
          | some x =>
            simpa using hns.1 x rfl
          | none =>
            cases th with
            | some y => simpa using hns.2 y rfl
            | none => decide
      · rw [if_neg hc] at hr
        cases hcp : env.clobPost o with
        | error e => rw [hcp] at hr; exact Except.noConfusion hr
        | ok p =>
          obtain ⟨oid, hh⟩ := p
          rw [hcp] at hr
          injection hr with h2
          subst h2
          have hns := h.2 o (oid, hh) hcp
          cases oid with
          | some x =>
            simpa using hns.1 x rfl
          | none =>
            cases hh with
            | some y => simpa using hns.2 y rfl
            | none => decide
  refine ⟨hok, ?_⟩
  intro fetch approvals settings running st ev hev
  exact tick_no_simulated (TickEnv.mk fetch approvals (mirrorOrder env s))
    settings running st hok ev hev

/-- Witness for C10: a concrete live environment whose CLOB path
returns the order id `0xdeadbeef`; `mirrorOrder` does not return the
scheduler's sentinel there. -/
theorem mirror_no_sentinel_witness :
    mirrorOrder pmEnvOk execLive order1 ≠ Except.ok "skipped:client-unavailable" := by
  have hns : pmEnvOk.noSentinel := by
    constructor
    · intro o slip p hp
      exact absurd hp (by simp [pmEnvOk])
    · intro o p hp
      have hpe : p = (some "0xdeadbeef", none) := by
        simpa [pmEnvOk] using hp.symm
      subst hpe
      constructor
      · intro x hx
        have hx2 : "0xdeadbeef" = x := by simpa using hx
        subst hx2
        decide
      · intro x hx
        simp at hx
  exact fun hc =>
    (mirror_no_sentinel pmEnvOk execLive hns).1 order1
      "skipped:client-unavailable" hc rfl

/-- C2: during a session started from the fresh state, at most one
mirrored order is ever submitted per address and fill id — across all
ticks and for any fetch/venue behaviour — and a fill whose id is
already in the address's `seenFillIds` set when delivered produces
zero new submissions in that tick. -/
theorem fill_dedup_at_most_once (settings : CopySettings) (envs : List TickEnv)
    (a fid : String) :
    subCount (runTicks settings SyncState.init envs).2.2 a fid ≤ 1 ∧
    (∀ (env : TickEnv) (st : SyncState) (running : Bool),
      fid ∈ lookupSeen st a →
      subCount (tick env settings running st).subs a fid = 0) :=
  ⟨(runTicks_dedup settings envs SyncState.init).2 a fid,
   fun env st running hmem => tick_subCount_seen env settings running st a fid hmem⟩

/-- Witness for C2: one session tick that delivers `fill1` and `fill2`,
and a tick on a state that has already seen id `f1`. -/
theorem fill_dedup_at_most_once_witness :
    subCount (runTicks settingsA SyncState.init [envSubmitFail]).2.2 "A" "f1" ≤ 1 ∧
    subCount (tick envSubmitFail settingsA true stSeenF1).subs "A" "f1" = 0 :=
  ⟨(fill_dedup_at_most_once settingsA [envSubmitFail] "A" "f1").1,
   (fill_dedup_at_most_once settingsA [envSubmitFail] "A" "f1").2
     envSubmitFail stSeenF1 true (by decide)⟩

/-- C3: the per-address cursor is the running maximum of the previous
cursor and each processed fill's timestamp — seen or not — and so
never decreases across any session of ticks, for any delivery order. -/
theorem cursor_monotone :
    (∀ (seen : List String) (last : Nat) (fs : List GammaFill),
      (scanFills seen last fs).2.1 =
        fs.foldl (fun acc f => max acc f.timestamp) last) ∧
    (∀ (settings : CopySettings) (st : SyncState) (envs : List TickEnv)
        (a : String),
      lookupTs st a ≤ lookupTs (runTicks settings st envs).1 a) :=
  ⟨fun seen last fs => scanFills_cursor fs seen last,
   fun settings st envs a => runTicks_ts_mono settings envs st a⟩

/-! ## Helper lemmas: the candidate-endpoint loop -/

theorem tryAttempts_cons (env : HttpEnv) (now : Nat) (a : Attempt)
    (rest : List Attempt) (le : Option String) :
    tryAttempts env now (a :: rest) le =
      (match attemptOutcome env now a with
       | Except.error m =>
         ((tryAttempts env now rest (some m)).1,
          a :: (tryAttempts env now rest (some m)).2)
       | Except.ok v => (Except.ok v, [a])) := rfl

theorem tryAttempts_cons_error (env : HttpEnv) (now : Nat) (b : Attempt)
    (rest : List Attempt) (le : Option String) (mb : String)
    (hob : attemptOutcome env now b = Except.error mb) :
    tryAttempts env now (b :: rest) le =
      ((tryAttempts env now rest (some mb)).1,
       b :: (tryAttempts env now rest (some mb)).2) := by
  rw [tryAttempts_cons, hob]

theorem tryAttempts_cons_ok (env : HttpEnv) (now : Nat) (b : Attempt)
    (rest : List Attempt) (le : Option String) (v : List GammaFill)
    (hob : attemptOutcome env now b = Except.ok v) :
    tryAttempts env now (b :: rest) le = (Except.ok v, [b]) := by
  rw [tryAttempts_cons, hob]

theorem tryAttempts_first_ok (env : HttpEnv) (now : Nat) :
    ∀ (pre : List Attempt) (a : Attempt) (rest : List Attempt)
      (v : List GammaFill) (le : Option String),
    (∀ b ∈ pre, attemptFails env now b = true) →
    attemptOutcome env now a = Except.ok v →
    tryAttempts env now (pre ++ a :: rest) le = (Except.ok v, pre ++ [a]) := by
  intro pre
  induction pre with
  | nil =>
    intro a rest v le _ ha
    rw [List.nil_append, tryAttempts_cons_ok env now a rest le v ha]
    rfl
  | cons b pre ih =>
    intro a rest v le hpre ha
    have hb := hpre b (List.mem_cons_self _ _)
    cases hob : attemptOutcome env now b with
    | ok w => simp [attemptFails, hob] at hb
    | error mb =>
      rw [List.cons_append, tryAttempts_cons_error env now b _ le mb hob,
        ih a rest v (some mb) (fun c hc => hpre c (List.mem_cons_of_mem _ hc)) ha]
      rfl

theorem tryAttempts_all_fail (env : HttpEnv) (now : Nat) :
    ∀ (l : List Attempt) (le : Option String) (lastA : Attempt) (m : String),
    (∀ b ∈ l, attemptFails env now b = true) →
    l.getLast? = some lastA →
    attemptOutcome env now lastA = Except.error m →
    tryAttempts env now l le = (Except.error m, l) := by
  intro l
  induction l with
  | nil => intro le lastA m _ hl; simp at hl
  | cons b rest ih =>
    intro le lastA m hall hl hm
    have hb := hall b (List.mem_cons_self _ _)
    cases hob : attemptOutcome env now b with
    | ok w => simp [attemptFails, hob] at hb
    | error mb =>
      cases rest with
      | nil =>
        have hba : b = lastA := by simpa using hl
        subst hba
        have hmm : mb = m := by
          rw [hob] at hm
          injection hm
        subst hmm
        rw [tryAttempts_cons_error env now b [] le mb hob]
        rfl
      | cons c rest2 =>
        rw [List.getLast?_cons_cons] at hl
        rw [tryAttempts_cons_error env now b (c :: rest2) le mb hob,
          ih (some mb) lastA m (fun d hd => hall d (List.mem_cons_of_mem _ hd))
            hl hm]

/-- C5: `fetchFillsByAddress` tries its candidates in the fixed list
order.  The first candidate whose response is neither 401 nor 404 and
whose normalization succeeds is accepted; its extractor produces the
result, and exactly the candidates up to and including it are
attempted.  If every candidate fails, the call throws the error of the
last-attempted candidate, where a 401 response yields the dedicated
`Unauthorized (401) from data source` error, a 404 yields
`Not found (404)` (a distinct message), and a transport error is
propagated with its own message. -/
theorem endpoint_fallback_order (env : HttpEnv) (now : Nat)
    (baseUrl address : String) (sinceMs : Option Nat) (limit : Nat) :
    (∀ (pre : List Attempt) (a : Attempt) (rest : List Attempt)
        (v : List GammaFill),
      attemptsFor (stripTrailingSlash baseUrl) address (sinceParam sinceMs) limit =
        pre ++ a :: rest →
      (∀ b ∈ pre, attemptFails env now b = true) →
      attemptOutcome env now a = Except.ok v →
      fetchFillsByAddress env now baseUrl address sinceMs limit =
        (Except.ok v, pre ++ [a])) ∧
    (∀ (lastA : Attempt) (m : String),
      (attemptsFor (stripTrailingSlash baseUrl) address (sinceParam sinceMs)
        limit).getLast? = some lastA →
      (∀ b ∈ attemptsFor (stripTrailingSlash baseUrl) address (sinceParam sinceMs)
          limit, attemptFails env now b = true) →
      attemptOutcome env now lastA = Except.error m →
      fetchFillsByAddress env now baseUrl address sinceMs limit =
        (Except.error m,
         attemptsFor (stripTrailingSlash baseUrl) address (sinceParam sinceMs)
           limit)) ∧
    (∀ (a : Attempt) (data : RawData),
      env a.url a.params = HttpOutcome.resp 401 data →
      attemptOutcome env now a =
        Except.error "Unauthorized (401) from data source") ∧
    (∀ (a : Attempt) (data : RawData),
      env a.url a.params = HttpOutcome.resp 404 data →
      attemptOutcome env now a = Except.error "Not found (404)") ∧
    (∀ (a : Attempt) (m : String),
      env a.url a.params = HttpOutcome.netError m →
      attemptOutcome env now a = Except.error m) ∧
    ("Unauthorized (401) from data source" ≠ "Not found (404)") := by
  refine ⟨?_, ?_, ?_, ?_, ?_, by decide⟩
  · intro pre a rest v heq hpre ha
    unfold fetchFillsByAddress
    rw [heq]
    exact tryAttempts_first_ok env now pre a rest v none hpre ha
  · intro lastA m hl hall hm
    unfold fetchFillsByAddress
    exact tryAttempts_all_fail env now _ none lastA m hall hl hm
  · intro a data h
    simp [attemptOutcome, h]
  · intro a data h
    simp [attemptOutcome, h]
  · intro a m h
    simp [attemptOutcome, h]

/-- Witness for C5: an environment where the first candidate 404s, the
second hits a transport timeout, and the third succeeds — exactly the
first three candidates are attempted and the third candidate's
`trades` extractor normalizes the result. -/
theorem endpoint_fallback_order_witness :
    fetchFillsByAddress httpEnv3 999 "https://g" "W" none 50 =
      (Except.ok ([rawTrade1].map (normalizeRawFill 999)),
       (attemptsFor "https://g" "W" none 50).take 2 ++
         [Attempt.mk "https://g/v1/trades" (mkParams (some "address") "W" 50 none)
           Extractor.trades]) :=
  (endpoint_fallback_order httpEnv3 999 "https://g" "W" none 50).1
    ((attemptsFor "https://g" "W" none 50).take 2)
    (Attempt.mk "https://g/v1/trades" (mkParams (some "address") "W" 50 none)
      Extractor.trades)
    ((attemptsFor "https://g" "W" none 50).drop 3)
    ([rawTrade1].map (normalizeRawFill 999))
    rfl
    (by decide)
    rfl

/-- C7: a fetch failure for one watched address is caught inside the
per-address loop and reported as an error event, and the tick goes on
to fetch and process every remaining address: with targets `[A, B]`
where `A`'s fetch throws and `B` returns one new fill, the tick ends
unaborted with an error event for `A` and exactly one mirrored
submission, for `B`'s fill. -/
theorem fetch_fault_isolation (env : TickEnv) (settings : CopySettings)
    (st : SyncState) (A B e : String) (f : GammaFill) (tx : String)
    (hT : settings.targetAddresses = [A, B])
    (hA : env.fetch A (lookupTs st A) = Except.error e)
    (hB : env.fetch B (lookupTs st B) = Except.ok [f])
    (hNew : f.id ∉ lookupSeen st B)
    (hAppr : env.approvals = Except.ok ())
    (hMir : env.mirror (toRequest f (computeMirrorSize settings f)) = Except.ok tx) :
    (tick env settings true st).subs = [subOf settings (TaggedFill.mk B f)] ∧
    Event.errorEvent e ∈ (tick env settings true st).events ∧
    (tick env settings true st).aborted = false := by
  have h1 := fetchPhase_cons_error env.fetch st A [B] e hA
  have hseen0 : lookupSeen (setSeen st A (lookupSeen st A)) B = lookupSeen st B :=
    lookupSeen_setSeen_same st A B
  have hscan22 : (scanFills (lookupSeen (setSeen st A (lookupSeen st A)) B)
      (lookupTs (setSeen st A (lookupSeen st A)) B) [f]).2.2 = [f] := by
    have hN : f.id ∉ lookupSeen (setSeen st A (lookupSeen st A)) B := by
      rwa [hseen0]
    simp [scanFills, hN]
  have h2 : (fetchPhase env.fetch (setSeen st A (lookupSeen st A)) [B]).2.2 =
      [TaggedFill.mk B f] := by
    rw [fetchPhase_cons_ok env.fetch (setSeen st A (lookupSeen st A)) B [] [f] hB]
    simp [fetchPhase, hscan22]
  have hAgg : (fetchPhase env.fetch st settings.targetAddresses).2.2 =
      [TaggedFill.mk B f] := by
    rw [hT, h1]
    exact h2
  have hEvs : (fetchPhase env.fetch st settings.targetAddresses).2.1 =
      Event.checking A (lookupTs st A) :: Event.errorEvent e ::
        (fetchPhase env.fetch (setSeen st A (lookupSeen st A)) [B]).2.1 := by
    rw [hT, h1]
  have hsp := submitPhase_cons_ok env.mirror settings (TaggedFill.mk B f) [] tx hMir
  have htick : tick env settings true st =
      { state := (fetchPhase env.fetch st settings.targetAddresses).1
        events := (fetchPhase env.fetch st settings.targetAddresses).2.1 ++
          (submitPhase env.mirror settings [TaggedFill.mk B f]).1
        subs := (submitPhase env.mirror settings [TaggedFill.mk B f]).2.1
        aborted := (submitPhase env.mirror settings [TaggedFill.mk B f]).2.2 } := by
    simp [tick, hAgg, hAppr]
  refine ⟨?_, ?_, ?_⟩
  · rw [htick, hsp]
    rfl
  · rw [htick]
    rw [hEvs]
    exact List.mem_append_left _
      (List.mem_cons_of_mem _ (List.mem_cons_self _ _))
  · rw [htick, hsp]
    rfl

/-- Witness for C7: address `"A"`'s fetch throws `ECONNRESET`, `"B"`
returns `fill2`; the tick reports the error and mirrors exactly `B`'s
fill. -/
theorem fetch_fault_isolation_witness :
    (tick envFaultIso settingsAB true SyncState.init).subs =
      [subOf settingsAB (TaggedFill.mk "B" fill2)] ∧
    Event.errorEvent "ECONNRESET" ∈
      (tick envFaultIso settingsAB true SyncState.init).events ∧
    (tick envFaultIso settingsAB true SyncState.init).aborted = false :=
  fetch_fault_isolation envFaultIso settingsAB SyncState.init "A" "B"
    "ECONNRESET" fill2 "0xabc" rfl rfl rfl (by decide) rfl rfl

/-- Counterexample to C1 as stated: a tick whose fetch delivers two
newly-seen fills (`f1` and `f2`, both recorded as seen), where
`mirrorOrder` throws on `f1`'s order.  The only attempted submission is
`f1`'s — no size is computed and no order submitted for the remaining
newly-seen fill `f2` — while the error is reported and the tick promise
rejects (`aborted = true`). -/
theorem submission_error_aborts_tick_cex :
    "f2" ∈ lookupSeen (tick envSubmitFail settingsA true SyncState.init).state "A" ∧
    (tick envSubmitFail settingsA true SyncState.init).subs =
      [subOf settingsA (TaggedFill.mk "A" fill1)] ∧
    subCount (tick envSubmitFail settingsA true SyncState.init).subs "A" "f2" = 0 ∧
    Event.errorEvent "venue rejected order" ∈
      (tick envSubmitFail settingsA true SyncState.init).events ∧
    (tick envSubmitFail settingsA true SyncState.init).aborted = true := by
  exact ⟨by decide, rfl, rfl, by decide, rfl⟩

/-- C1 amended: the submission loop has no per-fill error handling.
When `mirrorOrder` throws on a fill, every earlier fill of the batch
has been submitted, that fill's submission was attempted, the tick
aborts and its rejection is reported once as an error event (via the
scheduler-level catch), and no later fill of the batch is submitted. -/
theorem submission_error_abort (mirror : MirrorOrderRequest → Except String String)
    (settings : CopySettings) (pre : List TaggedFill) (tf : TaggedFill)
    (post : List TaggedFill) (e : String)
    (hpre : ∀ b ∈ pre, ∃ tx,
      mirror (toRequest b.fill (computeMirrorSize settings b.fill)) = Except.ok tx)
    (hf : mirror (toRequest tf.fill (computeMirrorSize settings tf.fill)) =
      Except.error e) :
    (submitPhase mirror settings (pre ++ tf :: post)).2.1 =
        (pre ++ [tf]).map (subOf settings) ∧
    (submitPhase mirror settings (pre ++ tf :: post)).2.2 = true ∧
    (submitPhase mirror settings (pre ++ tf :: post)).1.getLast? =
        some (Event.errorEvent e) :=
  submitPhase_abort mirror settings pre tf post e hpre hf

/-- Witness for the amended C1: the concrete failing batch
`[f1, f2]`. -/
theorem submission_error_abort_witness :
    (submitPhase envSubmitFail.mirror settingsA
        ([] ++ TaggedFill.mk "A" fill1 :: [TaggedFill.mk "A" fill2])).2.1 =
      ([] ++ [TaggedFill.mk "A" fill1]).map (subOf settingsA) ∧
    (submitPhase envSubmitFail.mirror settingsA
        ([] ++ TaggedFill.mk "A" fill1 :: [TaggedFill.mk "A" fill2])).2.2 = true ∧
    (submitPhase envSubmitFail.mirror settingsA
        ([] ++ TaggedFill.mk "A" fill1 :: [TaggedFill.mk "A" fill2])).1.getLast? =
      some (Event.errorEvent "venue rejected order") :=
  submission_error_abort envSubmitFail.mirror settingsA []
    (TaggedFill.mk "A" fill1) [TaggedFill.mk "A" fill2] "venue rejected order"
    (fun b hb => absurd hb (List.not_mem_nil b)) rfl

/-- Counterexample to C8 as stated: the Electron `copytrader:start`
path applies no clamping — a payload with `copyFactor = 10` and
`maxSlippageBps = 5000` reaches the service and the execution client
unchanged, and a percent-mode fill of size 1 is sized at the effective
factor `10 ∉ [0, 5]`, with slippage `5000 ∉ [10, 1000]`. -/
theorem ipc_no_clamp_cex :
    computeMirrorSize
        (ipcStart { payloadWide with executionMode := ExecMode.percent }).1
        { fill1 with size := 1 } = 10 ∧
    ¬ (computeMirrorSize
        (ipcStart { payloadWide with executionMode := ExecMode.percent }).1
        { fill1 with size := 1 } ≤ 5) ∧
    (ipcStart payloadWide).2.maxSlippageBps = 5000 ∧
    ¬ ((ipcStart payloadWide).2.maxSlippageBps ≤ 1000) := by
  have hpe : ¬ (ExecMode.percent = ExecMode.fixed) := by decide
  refine ⟨?_, ?_, rfl, ?_⟩
  · norm_num [computeMirrorSize, ipcStart, payloadWide, settingsA, fill1, hpe]
  · norm_num [computeMirrorSize, ipcStart, payloadWide, settingsA, fill1, hpe]
  · norm_num [ipcStart, payloadWide, settingsA]

/-- C8 amended: the clamps `copyFactor ∈ [0,5]` and
`maxSlippageBps ∈ [10,1000]` are applied at configuration time only in
the `HighPerformanceCopyTrader` backend (its `start` runs the clamping
setters before any trade is processed, and its sizing multiplies by the
stored factor with no further clamping); the Electron IPC start path
passes both values through unclamped. -/
theorem config_clamp_amended (cf bps : Rat) (dr : Bool) (payload : CopySettings)
    (sz : Rat) :
    0 ≤ (hpStart cf bps dr).copyFactor ∧
    (hpStart cf bps dr).copyFactor ≤ 5 ∧
    10 ≤ (hpStart cf bps dr).maxSlippageBps ∧
    (hpStart cf bps dr).maxSlippageBps ≤ 1000 ∧
    hpCopySize (hpStart cf bps dr) sz = sz * setCopyFactor cf ∧
    ipcStart payload =
      (payload,
       { maxSlippageBps := payload.maxSlippageBps, dryRun := payload.dryRun }) := by
  refine ⟨?_, ?_, ?_, ?_, rfl, rfl⟩
  · show (0 : Rat) ≤ max 0 (min 5 cf)
    exact le_max_left _ _
  · show max 0 (min 5 cf) ≤ 5
    exact max_le (by norm_num) (min_le_left _ _)
  · show (10 : Rat) ≤ max 10 (min 1000 bps)
    exact le_max_left _ _
  · show max 10 (min 1000 bps) ≤ 1000
    exact max_le (by norm_num) (min_le_left _ _)

end Copytrader
